import Mathlib

/-!
Verification of the QPS signup backend (`src/app.js`).

The service keeps one user record per email in a document store and exposes:
two signup endpoints (`POST /api/register-email`, `POST /api/update-details`),
two OAuth callback flows (Google, LinkedIn) that normalize an identity
assertion into a user record, and a health check (`GET /health`).

The store is modelled as a list of records plus an id counter; the single
store primitive used by the code, `findOneAndUpdate` keyed on `email` with an
optional `upsert`, is modelled with Mongoose's `$set` semantics: the update
document overwrites exactly the fields it mentions, and on upsert-creation the
schema defaults (`provider: 'local'`, `registeredAt: Date.now`) fill the rest.
-/

/-- A stored user document, per `userSchema` in `src/app.js`:
`email` (required, unique), optional `fullName`, `country`, `profession`,
`source`, `provider` (default `'local'`), `registeredAt` (default now),
plus the store-assigned `_id` (modelled as `id : Nat`). -/
structure UserRecord where
  id : Nat
  email : String
  fullName : Option String
  country : Option String
  profession : Option String
  source : Option String
  provider : String
  registeredAt : Nat
deriving DecidableEq

/-- The user record store: the list of documents and the next fresh `_id`. -/
structure Store where
  records : List UserRecord
  nextId : Nat
deriving DecidableEq

/-- An update document passed to `findOneAndUpdate`. A field is `none` when
the key is absent from the document (left unchanged), and `some v` when the
key is present with value `v`; for the four optional detail fields the value
itself may be absent (`some none` sets the stored field to absent). `_id` and
`registeredAt` appear in no update document in `src/app.js`. -/
structure UpdateDoc where
  email : Option String := none
  provider : Option String := none
  fullName : Option (Option String) := none
  country : Option (Option String) := none
  profession : Option (Option String) := none
  source : Option (Option String) := none

/-- Apply an update document to an existing record: overwrite exactly the
fields present in the document (Mongoose `$set` semantics). -/
def applyUpdate (u : UpdateDoc) (r : UserRecord) : UserRecord :=
  { r with
    email := u.email.getD r.email
    provider := u.provider.getD r.provider
    fullName := u.fullName.getD r.fullName
    country := u.country.getD r.country
    profession := u.profession.getD r.profession
    source := u.source.getD r.source }

/-- The record created by an upsert that found no match: query key plus the
update document's fields, with schema defaults `provider := "local"` and
`registeredAt := now`, and a store-assigned fresh id. -/
def createRecord (u : UpdateDoc) (q : String) (id now : Nat) : UserRecord :=
  { id := id
    email := u.email.getD q
    fullName := u.fullName.getD none
    country := u.country.getD none
    profession := u.profession.getD none
    source := u.source.getD none
    provider := u.provider.getD "local"
    registeredAt := now }

/-- Look up the first record whose `email` equals the query key. -/
def findByEmail (l : List UserRecord) (q : String) : Option UserRecord :=
  l.find? (fun r => r.email == q)

/-- Replace the first element satisfying `p` by `f` of it, as the store's
single-document update does. -/
def updateFirst (p : α → Bool) (f : α → α) : List α → List α
  | [] => []
  | a :: l => if p a then f a :: l else a :: updateFirst p f l

/-- `User.findOneAndUpdate({email: q}, u, {upsert, new: true})`: if a record
with email `q` exists, overwrite its fields from `u` and return the updated
record; otherwise, when `upsert` is set, insert a fresh record and return it,
and when it is not, return `null` and leave the store unchanged. -/
def findOneAndUpdate (s : Store) (q : String) (u : UpdateDoc) (upsert : Bool)
    (now : Nat) : Option UserRecord × Store :=
  match findByEmail s.records q with
  | some r =>
      let r' := applyUpdate u r
      (some r', { s with records := updateFirst (fun x => x.email == q) (fun _ => r') s.records })
  | none =>
      if upsert then
        let r := createRecord u q s.nextId now
        (some r, { records := s.records ++ [r], nextId := s.nextId + 1 })
      else
        (none, s)

/-- JavaScript `String.prototype.includes` specialized to a one-character
needle, as in `email.includes('@')`: membership of the character in the
string. -/
def includes (e : String) (c : Char) : Bool :=
  e.data.contains c

/-- Response of `POST /api/register-email`: 400 with an error string, 200 with
a message and the record id, or 500 on a store failure. -/
inductive RegisterResult
  | badRequest (error : String)
  | ok (message : String) (userId : Nat)
  | serverError (error : String)
deriving DecidableEq

/-- Handler of `POST /api/register-email`: requires a present, non-empty email
containing `'@'`; on success upserts `{email}` and returns the record id. The
`serverError` branch is the `catch` path (a `null` upsert result would fault
on `user._id`). -/
def registerEmail (s : Store) (now : Nat) (email? : Option String) :
    RegisterResult × Store :=
  match email? with
  | none => (.badRequest "Valid email required", s)
  | some email =>
    if email == "" || !(includes email '@') then
      (.badRequest "Valid email required", s)
    else
      match findOneAndUpdate s email { email := some email } true now with
      | (some user, s') => (.ok "✅ Logic Seeded" user.id, s')
      | (none, s') => (.serverError "Server error", s')

/-- Request body of `POST /api/update-details`; every field may be absent. -/
structure DetailsReq where
  email : Option String := none
  fullName : Option String := none
  country : Option String := none
  profession : Option String := none
  source : Option String := none

/-- Response of `POST /api/update-details`: 400 when the email is missing, or
200 carrying the post-update record — which is `null` when no record with
that email exists, since the handler passes no `upsert` option. -/
inductive DetailsResult
  | badRequest (error : String)
  | ok (message : String) (data : Option UserRecord)
deriving DecidableEq

/-- Handler of `POST /api/update-details`: requires a present, non-empty
email; then runs `findOneAndUpdate({email}, {fullName, country, profession,
source}, {new: true})` — all four fields are passed through unconditionally
(no partial-field filtering) and no `upsert` option is given. -/
def updateDetails (s : Store) (now : Nat) (req : DetailsReq) :
    DetailsResult × Store :=
  match req.email with
  | none => (.badRequest "Email required", s)
  | some email =>
    if email == "" then
      (.badRequest "Email required", s)
    else
      let (updatedUser, s') := findOneAndUpdate s email
        { fullName := some req.fullName
          country := some req.country
          profession := some req.profession
          source := some req.source } false now
      (.ok "Details saved. You're now part of QPS waitlist!" updatedUser, s')

/-- A provider profile as the verify callbacks read it: `profile.emails`
(list of address values, possibly empty), `profile.email` (LinkedIn), and
`profile.displayName`. -/
structure Profile where
  emails : List String := []
  email : Option String := none
  displayName : Option String := none

/-- JavaScript truthiness on an optional string: `undefined` and `""` are
falsy. -/
def jsTruthy (s? : Option String) : Option String :=
  match s? with
  | some s => if s == "" then none else some s
  | none => none

/-- Email claim the Google verify callback extracts:
`profile.emails?.[0]?.value`, rejected by `if (!email)` when falsy. -/
def googleEmailClaim (p : Profile) : Option String :=
  jsTruthy p.emails.head?

/-- Email claim the LinkedIn verify callback extracts:
`profile.email || profile.emails?.[0]?.value`, rejected when falsy. -/
def linkedinEmailClaim (p : Profile) : Option String :=
  match jsTruthy p.email with
  | some e => some e
  | none => jsTruthy p.emails.head?

/-- Outcome of a passport verify callback: an authenticated user, or a
failure (`done` called with an error or no user). -/
inductive VerifyResult
  | success (user : UserRecord)
  | fail
deriving DecidableEq

/-- Google verify callback: extract the email claim; if absent fail without
touching the store; otherwise upsert `{email, provider: 'google', fullName:
profile.displayName}`. -/
def googleVerify (s : Store) (now : Nat) (p : Profile) : VerifyResult × Store :=
  match googleEmailClaim p with
  | none => (.fail, s)
  | some email =>
    match findOneAndUpdate s email
        { email := some email, provider := some "google",
          fullName := some p.displayName } true now with
    | (some user, s') => (.success user, s')
    | (none, s') => (.fail, s')

/-- LinkedIn verify callback: extract the email claim; if absent fail without
touching the store; otherwise upsert `{email, provider: 'linkedin', fullName:
profile.displayName}`. -/
def linkedinVerify (s : Store) (now : Nat) (p : Profile) : VerifyResult × Store :=
  match linkedinEmailClaim p with
  | none => (.fail, s)
  | some email =>
    match findOneAndUpdate s email
        { email := some email, provider := some "linkedin",
          fullName := some p.displayName } true now with
    | (some user, s') => (.success user, s')
    | (none, s') => (.fail, s')

/-- Response of an OAuth callback route: the 302 to
`https://quantumshell.live/details?email=...` on success, or the failure
redirect to `/error`. -/
inductive CallbackResponse
  | redirectDetails (email : String)
  | redirectError
deriving DecidableEq

/-- Full outcome of an OAuth callback request: HTTP response, session
principal (`user._id` via `serializeUser`, `none` when unauthenticated), and
the resulting store. -/
structure CallbackOut where
  response : CallbackResponse
  session : Option Nat
  store : Store
deriving DecidableEq

/-- `GET /auth/google/callback`: authenticate via the Google verify callback;
on success establish the session on `user._id` and redirect to the details
page with the user's email; on failure redirect to `/error` with the session
left as it was. -/
def authGoogleCallback (s : Store) (sess : Option Nat) (now : Nat)
    (p : Profile) : CallbackOut :=
  match googleVerify s now p with
  | (.success user, s') => ⟨.redirectDetails user.email, some user.id, s'⟩
  | (.fail, s') => ⟨.redirectError, sess, s'⟩

/-- `GET /auth/linkedin/callback`, same shape as the Google callback. -/
def authLinkedinCallback (s : Store) (sess : Option Nat) (now : Nat)
    (p : Profile) : CallbackOut :=
  match linkedinVerify s now p with
  | (.success user, s') => ⟨.redirectDetails user.email, some user.id, s'⟩
  | (.fail, s') => ⟨.redirectError, sess, s'⟩

/-- Body of the `GET /health` response. -/
structure HealthBody where
  status : String
  timestamp : Nat
deriving DecidableEq

/-- `GET /health` handler: unconditionally status 200 with a fixed status
string and the current time; the store is in scope but never consulted. -/
def healthHandler (_s : Store) (now : Nat) : Nat × HealthBody :=
  (200, { status := "QPS Kernel Active", timestamp := now })

/-- One inbound request among the four store-touching operations. -/
inductive Op
  | register (now : Nat) (email? : Option String)
  | details (now : Nat) (req : DetailsReq)
  | google (now : Nat) (sess : Option Nat) (p : Profile)
  | linkedin (now : Nat) (sess : Option Nat) (p : Profile)

/-- The timestamp at which an operation runs. -/
def Op.now : Op → Nat
  | .register n _ => n
  | .details n _ => n
  | .google n _ _ => n
  | .linkedin n _ _ => n

/-- Effect of one operation on the store. -/
def applyOp (s : Store) : Op → Store
  | .register now email? => (registerEmail s now email?).2
  | .details now req => (updateDetails s now req).2
  | .google now sess p => (authGoogleCallback s sess now p).store
  | .linkedin now sess p => (authLinkedinCallback s sess now p).store

/-- The emails of the stored records, in store order. -/
def emailsOf (l : List UserRecord) : List String :=
  l.map (fun r => r.email)

/-- Number of stored records carrying a given email. -/
def countEmail (s : Store) (e : String) : Nat :=
  (emailsOf s.records).count e

/-- The store's uniqueness invariant: no two records share an email. -/
def emailUnique (s : Store) : Prop :=
  (emailsOf s.records).Nodup

lemma applyUpdate_id (u : UpdateDoc) (r : UserRecord) :
    (applyUpdate u r).id = r.id := rfl

lemma applyUpdate_registeredAt (u : UpdateDoc) (r : UserRecord) :
    (applyUpdate u r).registeredAt = r.registeredAt := rfl

lemma findByEmail_cons (a : UserRecord) (l : List UserRecord) (q : String) :
    findByEmail (a :: l) q = if a.email == q then some a else findByEmail l q := by
  cases hp : a.email == q <;> simp [findByEmail, List.find?_cons, hp]

lemma findByEmail_eq_none_iff (l : List UserRecord) (q : String) :
    findByEmail l q = none ↔ ∀ r ∈ l, r.email ≠ q := by
  simp [findByEmail, List.find?_eq_none]

lemma findByEmail_email {l : List UserRecord} {q : String} {r : UserRecord}
    (h : findByEmail l q = some r) : r.email = q := by
  have := List.find?_some h
  simpa using this

lemma findByEmail_mem {l : List UserRecord} {q : String} {r : UserRecord}
    (h : findByEmail l q = some r) : r ∈ l :=
  List.mem_of_find?_eq_some h

lemma updateFirst_eq_self {α : Type} (p : α → Bool) (f : α → α) (l : List α)
    (h : ∀ a ∈ l, p a = true → f a = a) : updateFirst p f l = l := by
  induction l with
  | nil => rfl
  | cons a l ih =>
    by_cases hp : p a = true
    · rw [updateFirst, if_pos hp, h a (by simp) hp]
    · rw [updateFirst, if_neg hp, ih fun a ha hpa => h a (by simp [ha]) hpa]

lemma emailsOf_updateFirst (q : String) (r' : UserRecord) (hr : r'.email = q)
    (l : List UserRecord) :
    emailsOf (updateFirst (fun x => x.email == q) (fun _ => r') l) = emailsOf l := by
  induction l with
  | nil => rfl
  | cons a l ih =>
    by_cases hp : (a.email == q) = true
    · have ha : a.email = q := by simpa using hp
      rw [updateFirst, if_pos hp]
      simp [emailsOf, hr, ha]
    · rw [updateFirst, if_neg hp]
      simp only [emailsOf, List.map_cons] at ih ⊢
      rw [ih]

lemma findByEmail_updateFirst (l : List UserRecord) (q : String)
    (r r' : UserRecord) (h : findByEmail l q = some r) (hr : r'.email = q) :
    findByEmail (updateFirst (fun x => x.email == q) (fun _ => r') l) q =
      some r' := by
  induction l with
  | nil => simp [findByEmail] at h
  | cons a l ih =>
    by_cases hp : (a.email == q) = true
    · rw [updateFirst, if_pos hp, findByEmail_cons, if_pos (by simpa using hr)]
    · rw [findByEmail_cons, if_neg hp] at h
      rw [updateFirst, if_neg hp, findByEmail_cons, if_neg hp]
      exact ih h

lemma updateFirst_found_frame (l : List UserRecord) (q : String)
    (r : UserRecord) (g : UserRecord → UserRecord)
    (h : findByEmail l q = some r) :
    ∀ a ∈ l, a ∈ updateFirst (fun x => x.email == q) (fun _ => g r) l ∨
      (a = r ∧ g r ∈ updateFirst (fun x => x.email == q) (fun _ => g r) l) := by
  induction l with
  | nil => simp
  | cons x l ih =>
    intro a ha
    by_cases hp : (x.email == q) = true
    · rw [findByEmail_cons, if_pos hp] at h
      cases h
      rw [updateFirst, if_pos hp]
      rcases List.mem_cons.mp ha with h1 | h1
      · exact Or.inr ⟨h1, by simp⟩
      · exact Or.inl (List.mem_cons_of_mem _ h1)
    · rw [findByEmail_cons, if_neg hp] at h
      rw [updateFirst, if_neg hp]
      rcases List.mem_cons.mp ha with h1 | h1
      · exact Or.inl (by simp [h1])
      · rcases ih h a h1 with h2 | ⟨h2, h3⟩
        · exact Or.inl (List.mem_cons_of_mem _ h2)
        · exact Or.inr ⟨h2, List.mem_cons_of_mem _ h3⟩

lemma updateFirst_found_sub (l : List UserRecord) (q : String)
    (g : UserRecord → UserRecord) :
    ∀ b ∈ updateFirst (fun x => x.email == q) g l, b ∈ l ∨ ∃ a ∈ l, b = g a := by
  induction l with
  | nil => simp [updateFirst]
  | cons x l ih =>
    intro b hb
    by_cases hp : (x.email == q) = true
    · rw [updateFirst, if_pos hp] at hb
      rcases List.mem_cons.mp hb with h1 | h1
      · exact Or.inr ⟨x, by simp, h1⟩
      · exact Or.inl (List.mem_cons_of_mem _ h1)
    · rw [updateFirst, if_neg hp] at hb
      rcases List.mem_cons.mp hb with h1 | h1
      · exact Or.inl (by simp [h1])
      · rcases ih b h1 with h2 | ⟨a, ha, h2⟩
        · exact Or.inl (List.mem_cons_of_mem _ h2)
        · exact Or.inr ⟨a, List.mem_cons_of_mem _ ha, h2⟩

lemma findByEmail_append_none (l : List UserRecord) (q : String)
    (r' : UserRecord) (h : findByEmail l q = none) (hr : r'.email = q) :
    findByEmail (l ++ [r']) q = some r' := by
  induction l with
  | nil => simp [findByEmail, List.find?_cons, hr]
  | cons a l ih =>
    rw [findByEmail_cons] at h
    by_cases hp : (a.email == q) = true
    · rw [if_pos hp] at h; cases h
    · rw [if_neg hp] at h
      rw [List.cons_append, findByEmail_cons, if_neg hp]
      exact ih h

lemma emailsOf_append (l : List UserRecord) (r' : UserRecord) :
    emailsOf (l ++ [r']) = emailsOf l ++ [r'.email] := by
  simp [emailsOf]

lemma findOneAndUpdate_found (s : Store) (q : String) (u : UpdateDoc)
    (b : Bool) (now : Nat) (r : UserRecord)
    (h : findByEmail s.records q = some r) :
    findOneAndUpdate s q u b now =
      (some (applyUpdate u r),
       { s with records := (updateFirst (fun x => x.email == q) (fun _ => applyUpdate u r) s.records) }) := by
  simp [findOneAndUpdate, h]

lemma findOneAndUpdate_absent (s : Store) (q : String) (u : UpdateDoc)
    (now : Nat) (h : findByEmail s.records q = none) :
    findOneAndUpdate s q u true now =
      (some (createRecord u q s.nextId now),
       ⟨s.records ++ [createRecord u q s.nextId now], s.nextId + 1⟩) := by
  simp [findOneAndUpdate, h]

lemma updateFirst_length {α : Type} (p : α → Bool) (f : α → α) (l : List α) :
    (updateFirst p f l).length = l.length := by
  induction l with
  | nil => rfl
  | cons a l ih =>
    by_cases hp : p a = true
    · rw [updateFirst, if_pos hp]
      simp
    · rw [updateFirst, if_neg hp]
      simp [ih]

lemma updateFirst_found_eq_self {α : Type} (p : α → Bool) (f : α → α)
    (l : List α) (r : α) (h : l.find? p = some r) (hf : f r = r) :
    updateFirst p f l = l := by
  induction l with
  | nil => rfl
  | cons a l ih =>
    by_cases hp : p a = true
    · rw [List.find?_cons_of_pos _ hp] at h
      cases h
      rw [updateFirst, if_pos hp, hf]
    · rw [List.find?_cons_of_neg _ hp] at h
      rw [updateFirst, if_neg hp, ih h]

lemma mem_emailsOf {l : List UserRecord} {q : String} :
    q ∈ emailsOf l ↔ ∃ r ∈ l, r.email = q := by
  simp [emailsOf, eq_comm]

lemma countEmail_eq_zero {s : Store} {q : String}
    (h : findByEmail s.records q = none) : countEmail s q = 0 := by
  rw [countEmail, List.count_eq_zero]
  rw [findByEmail_eq_none_iff] at h
  rw [mem_emailsOf]
  rintro ⟨r, hr, he⟩
  exact h r hr he

lemma countEmail_pos {s : Store} {q : String} {r : UserRecord}
    (h : findByEmail s.records q = some r) : 0 < countEmail s q := by
  rw [countEmail, List.count_pos_iff]
  exact mem_emailsOf.mpr ⟨r, findByEmail_mem h, findByEmail_email h⟩

lemma authGoogleCallback_store (s : Store) (sess : Option Nat) (now : Nat)
    (p : Profile) :
    (authGoogleCallback s sess now p).store = (googleVerify s now p).2 := by
  cases h : googleVerify s now p with
  | mk res s' => cases res <;> simp [authGoogleCallback, h]

lemma authLinkedinCallback_store (s : Store) (sess : Option Nat) (now : Nat)
    (p : Profile) :
    (authLinkedinCallback s sess now p).store = (linkedinVerify s now p).2 := by
  cases h : linkedinVerify s now p with
  | mk res s' => cases res <;> simp [authLinkedinCallback, h]

lemma string_beq_empty_false {e : String} (hat : includes e '@' = true) :
    (e == "") = false := by
  rw [beq_eq_false_iff_ne]
  intro h
  subst h
  exact absurd hat (by decide)

/-- Every operation either leaves the store untouched, overwrites the fields
of the first record matching some queried email, or appends a freshly created
record for an email that had no match; the update document's `email` field is
never anything but the queried email. -/
lemma applyOp_shape (s : Store) (op : Op) :
    applyOp s op = s ∨
    (∃ q u r, findByEmail s.records q = some r ∧
      (applyOp s op).records =
        updateFirst (fun x => x.email == q) (fun _ => applyUpdate u r) s.records ∧
      (u.email = none ∨ u.email = some q)) ∨
    (∃ q u, findByEmail s.records q = none ∧
      (applyOp s op).records = s.records ++ [createRecord u q s.nextId op.now] ∧
      (u.email = none ∨ u.email = some q)) := by
  cases op with
  | register now email? =>
    cases email? with
    | none => exact Or.inl rfl
    | some e =>
      by_cases hv : (e == "" || !(includes e '@')) = true
      · left
        simp [applyOp, registerEmail, hv]
      · cases hfind : findByEmail s.records e with
        | some r =>
          right; left
          refine ⟨e, { email := some e }, r, hfind, ?_, Or.inr rfl⟩
          simp [applyOp, registerEmail, hv,
            findOneAndUpdate_found s e { email := some e } true now r hfind]
        | none =>
          right; right
          refine ⟨e, { email := some e }, hfind, ?_, Or.inr rfl⟩
          simp [applyOp, registerEmail, hv,
            findOneAndUpdate_absent s e { email := some e } now hfind, Op.now]
  | details now req =>
    cases hreq : req.email with
    | none => left; simp [applyOp, updateDetails, hreq]
    | some e =>
      by_cases hv : (e == "") = true
      · left
        simp [applyOp, updateDetails, hreq, hv]
      · cases hfind : findByEmail s.records e with
        | some r =>
          right; left
          refine ⟨e, { fullName := some req.fullName, country := some req.country, profession := some req.profession, source := some req.source }, r, hfind, ?_, Or.inl rfl⟩
          simp [applyOp, updateDetails, hreq, hv,
            findOneAndUpdate_found s e _ false now r hfind]
        | none =>
          left
          simp [applyOp, updateDetails, hreq, hv, findOneAndUpdate, hfind]
  | google now sess p =>
    cases hc : googleEmailClaim p with
    | none =>
      left
      simp [applyOp, authGoogleCallback_store, googleVerify, hc]
    | some e =>
      cases hfind : findByEmail s.records e with
      | some r =>
        right; left
        refine ⟨e, { email := some e, provider := some "google", fullName := some p.displayName }, r, hfind, ?_, Or.inr rfl⟩
        simp [applyOp, authGoogleCallback_store, googleVerify, hc,
          findOneAndUpdate_found s e _ true now r hfind]
      | none =>
        right; right
        refine ⟨e, { email := some e, provider := some "google", fullName := some p.displayName }, hfind, ?_, Or.inr rfl⟩
        simp [applyOp, authGoogleCallback_store, googleVerify, hc,
          findOneAndUpdate_absent s e _ now hfind, Op.now]
  | linkedin now sess p =>
    cases hc : linkedinEmailClaim p with
    | none =>
      left
      simp [applyOp, authLinkedinCallback_store, linkedinVerify, hc]
    | some e =>
      cases hfind : findByEmail s.records e with
      | some r =>
        right; left
        refine ⟨e, { email := some e, provider := some "linkedin", fullName := some p.displayName }, r, hfind, ?_, Or.inr rfl⟩
        simp [applyOp, authLinkedinCallback_store, linkedinVerify, hc,
          findOneAndUpdate_found s e _ true now r hfind]
      | none =>
        right; right
        refine ⟨e, { email := some e, provider := some "linkedin", fullName := some p.displayName }, hfind, ?_, Or.inr rfl⟩
        simp [applyOp, authLinkedinCallback_store, linkedinVerify, hc,
          findOneAndUpdate_absent s e _ now hfind, Op.now]

/-- C9: `GET /health` returns status 200 with the status field and the
current timestamp for every request, and its result is independent of the
store state. -/
theorem C9_health_unconditional (s s' : Store) (now : Nat) :
    (healthHandler s now).1 = 200 ∧
    (healthHandler s now).2.status = "QPS Kernel Active" ∧
    (healthHandler s now).2.timestamp = now ∧
    healthHandler s now = healthHandler s' now :=
  ⟨rfl, rfl, rfl, rfl⟩

/-- C5: whenever the request body's email is absent or is a string not
containing `'@'`, `register-email` answers 400 ("Valid email required") and
leaves the store unchanged. -/
theorem C5_register_rejects_invalid (s : Store) (now : Nat)
    (email? : Option String)
    (h : email? = none ∨ ∃ e, email? = some e ∧ includes e '@' = false) :
    registerEmail s now email? = (.badRequest "Valid email required", s) := by
  rcases h with h | ⟨e, he, hc⟩
  · rw [h]; rfl
  · rw [he]
    simp [registerEmail, hc]

theorem C5_register_rejects_invalid_witness :
    registerEmail ⟨[], 0⟩ 0 (some "nodomain") =
      (.badRequest "Valid email required", ⟨[], 0⟩) :=
  C5_register_rejects_invalid ⟨[], 0⟩ 0 (some "nodomain")
    (Or.inr ⟨"nodomain", rfl, by decide⟩)

/-- C2: an identity assertion with no email claim — Google or LinkedIn —
makes the callback redirect to the error page with the session left exactly
as it was (none is established) and the store completely unchanged. -/
theorem C2_missing_email_claim (s : Store) (sess : Option Nat) (now : Nat)
    (p : Profile) :
    (googleEmailClaim p = none →
      authGoogleCallback s sess now p = ⟨.redirectError, sess, s⟩) ∧
    (linkedinEmailClaim p = none →
      authLinkedinCallback s sess now p = ⟨.redirectError, sess, s⟩) := by
  constructor
  · intro h
    simp [authGoogleCallback, googleVerify, h]
  · intro h
    simp [authLinkedinCallback, linkedinVerify, h]

theorem C2_missing_email_claim_witness :
    authGoogleCallback ⟨[], 0⟩ none 0 ⟨[], none, none⟩ =
      ⟨.redirectError, none, ⟨[], 0⟩⟩ ∧
    authLinkedinCallback ⟨[], 0⟩ none 0 ⟨[], none, none⟩ =
      ⟨.redirectError, none, ⟨[], 0⟩⟩ :=
  ⟨(C2_missing_email_claim ⟨[], 0⟩ none 0 ⟨[], none, none⟩).1 rfl,
   (C2_missing_email_claim ⟨[], 0⟩ none 0 ⟨[], none, none⟩).2 rfl⟩

/-- C1 fails as stated: on the empty store, update-details for the unseen
email "a@x.com" creates no record — the store stays empty — and returns 200
with a null record instead of a full updated record. -/
theorem C1_counterexample :
    (updateDetails ⟨[], 0⟩ 0 { email := some "a@x.com", fullName := some "Ada" }).2 = ⟨[], 0⟩ ∧
    (updateDetails ⟨[], 0⟩ 0 { email := some "a@x.com", fullName := some "Ada" }).1 =
      .ok "Details saved. You're now part of QPS waitlist!" none := by
  exact ⟨rfl, rfl⟩

/-- C1 (amended): only `register-email` upserts. For a valid email absent
from the store, `update-details` leaves the store unchanged and returns 200
with a null record, while `register-email` on the same absent email appends a
fresh record keyed by it and returns its id. -/
theorem C1_amended_details_no_upsert (s : Store) (now : Nat) (req : DetailsReq)
    (e : String) (he : req.email = some e) (hat : includes e '@' = true)
    (habs : findByEmail s.records e = none) :
    ((updateDetails s now req).2 = s ∧
     (updateDetails s now req).1 =
       .ok "Details saved. You're now part of QPS waitlist!" none) ∧
    (∃ r, registerEmail s now (some e) =
        (.ok "✅ Logic Seeded" r.id, ⟨s.records ++ [r], s.nextId + 1⟩) ∧
      r.email = e) := by
  have hne : (e == "") = false := string_beq_empty_false hat
  refine ⟨?_, ?_⟩
  · constructor <;>
      simp [updateDetails, he, hne, findOneAndUpdate, habs]
  · refine ⟨createRecord { email := some e } e s.nextId now, ?_, rfl⟩
    simp [registerEmail, hne, hat,
      findOneAndUpdate_absent s e { email := some e } now habs]

theorem C1_amended_details_no_upsert_witness :
    (((updateDetails ⟨[], 7⟩ 3 { email := some "a@x.com", fullName := some "Ada" }).2 = ⟨[], 7⟩ ∧
      (updateDetails ⟨[], 7⟩ 3 { email := some "a@x.com", fullName := some "Ada" }).1 =
        .ok "Details saved. You're now part of QPS waitlist!" none) ∧
     (∃ r, registerEmail ⟨[], 7⟩ 3 (some "a@x.com") =
         (.ok "✅ Logic Seeded" r.id, ⟨[] ++ [r], 7 + 1⟩) ∧
       r.email = "a@x.com")) :=
  C1_amended_details_no_upsert ⟨[], 7⟩ 3
    { email := some "a@x.com", fullName := some "Ada" } "a@x.com" rfl
    (by decide) (by decide)

/-- C3: `register-email` is idempotent — for an email already stored, the
call answers 200 with the id of the existing record and the number of stored
records does not change. -/
theorem C3_register_idempotent (s : Store) (now : Nat) (e : String)
    (r : UserRecord) (hfind : findByEmail s.records e = some r)
    (hat : includes e '@' = true) :
    (registerEmail s now (some e)).1 = .ok "✅ Logic Seeded" r.id ∧
    (registerEmail s now (some e)).2.records.length = s.records.length := by
  have hne : (e == "") = false := string_beq_empty_false hat
  constructor <;>
    simp [registerEmail, hne, hat,
      findOneAndUpdate_found s e { email := some e } true now r hfind,
      applyUpdate_id, updateFirst_length]

theorem C3_register_idempotent_witness :
    (registerEmail ⟨[⟨0, "a@x.com", none, none, none, none, "local", 7⟩], 1⟩ 3 (some "a@x.com")).1 =
      .ok "✅ Logic Seeded" 0 ∧
    (registerEmail ⟨[⟨0, "a@x.com", none, none, none, none, "local", 7⟩], 1⟩ 3 (some "a@x.com")).2.records.length =
      (⟨[⟨0, "a@x.com", none, none, none, none, "local", 7⟩], 1⟩ : Store).records.length :=
  C3_register_idempotent ⟨[⟨0, "a@x.com", none, none, none, none, "local", 7⟩], 1⟩ 3
    "a@x.com" ⟨0, "a@x.com", none, none, none, none, "local", 7⟩ (by decide) (by decide)

/-- C10: a successful `register-email` on an email already stored leaves the
store — and so every field of that email's record — entirely unchanged, and
answers with the existing record's id. -/
theorem C10_register_existing_frame (s : Store) (now : Nat) (e : String)
    (r : UserRecord) (hfind : findByEmail s.records e = some r)
    (hat : includes e '@' = true) :
    registerEmail s now (some e) = (.ok "✅ Logic Seeded" r.id, s) := by
  have hne : (e == "") = false := string_beq_empty_false hat
  have hre : r.email = e := findByEmail_email hfind
  have hr : applyUpdate { email := some e } r = r := by
    cases r
    simp_all [applyUpdate]
  have hself : updateFirst (fun x => x.email == e)
      (fun _ => applyUpdate { email := some e } r) s.records = s.records := by
    rw [hr]
    exact updateFirst_found_eq_self _ _ s.records r hfind rfl
  simp [registerEmail, hne, hat,
    findOneAndUpdate_found s e { email := some e } true now r hfind, hself,
    applyUpdate_id]

theorem C10_register_existing_frame_witness :
    registerEmail ⟨[⟨0, "a@x.com", none, none, none, none, "local", 7⟩], 1⟩ 3 (some "a@x.com") =
      (.ok "✅ Logic Seeded" 0, ⟨[⟨0, "a@x.com", none, none, none, none, "local", 7⟩], 1⟩) :=
  C10_register_existing_frame ⟨[⟨0, "a@x.com", none, none, none, none, "local", 7⟩], 1⟩ 3
    "a@x.com" ⟨0, "a@x.com", none, none, none, none, "local", 7⟩ (by decide) (by decide)

/-- C8: a valid `update-details` on a stored email answers 200 with a record
whose four detail fields are exactly the supplied request values — an absent
request field overwrites the stored value with absent — while id, email,
provider and registeredAt are kept; the stored record becomes that record. -/
theorem C8_update_details_overwrites (s : Store) (now : Nat) (req : DetailsReq)
    (e : String) (r : UserRecord) (he : req.email = some e)
    (hne : (e == "") = false) (hfind : findByEmail s.records e = some r) :
    ∃ u, (updateDetails s now req).1 =
        .ok "Details saved. You're now part of QPS waitlist!" (some u) ∧
      u.fullName = req.fullName ∧ u.country = req.country ∧
      u.profession = req.profession ∧ u.source = req.source ∧
      u.email = r.email ∧ u.provider = r.provider ∧ u.id = r.id ∧
      u.registeredAt = r.registeredAt ∧
      findByEmail (updateDetails s now req).2.records e = some u := by
  refine ⟨applyUpdate { fullName := some req.fullName, country := some req.country, profession := some req.profession, source := some req.source } r,
    ?_, rfl, rfl, rfl, rfl, rfl, rfl, rfl, rfl, ?_⟩
  · simp [updateDetails, he, hne,
      findOneAndUpdate_found s e { fullName := some req.fullName, country := some req.country, profession := some req.profession, source := some req.source } false now r hfind]
  · have hu : (applyUpdate { fullName := some req.fullName, country := some req.country, profession := some req.profession, source := some req.source } r).email = e := by
      simpa [applyUpdate] using findByEmail_email hfind
    simp [updateDetails, he, hne,
      findOneAndUpdate_found s e { fullName := some req.fullName, country := some req.country, profession := some req.profession, source := some req.source } false now r hfind]
    exact findByEmail_updateFirst s.records e r _ hfind hu

theorem C8_update_details_overwrites_witness :
    ∃ u, (updateDetails ⟨[⟨0, "a@x.com", some "Old", some "FR", none, none, "local", 7⟩], 1⟩ 3
          { email := some "a@x.com", fullName := some "Ada" }).1 =
        .ok "Details saved. You're now part of QPS waitlist!" (some u) ∧
      u.fullName = some "Ada" ∧ u.country = none ∧
      u.profession = none ∧ u.source = none ∧
      u.email = "a@x.com" ∧ u.provider = "local" ∧ u.id = 0 ∧
      u.registeredAt = 7 ∧
      findByEmail (updateDetails ⟨[⟨0, "a@x.com", some "Old", some "FR", none, none, "local", 7⟩], 1⟩ 3
          { email := some "a@x.com", fullName := some "Ada" }).2.records "a@x.com" = some u :=
  C8_update_details_overwrites ⟨[⟨0, "a@x.com", some "Old", some "FR", none, none, "local", 7⟩], 1⟩ 3
    { email := some "a@x.com", fullName := some "Ada" } "a@x.com"
    ⟨0, "a@x.com", some "Old", some "FR", none, none, "local", 7⟩ rfl (by decide) (by decide)

/-- An upsert whose update document carries the queried email, run on a store
holding at most one record for that email, leaves exactly one record for it:
the looked-up record is the upserted one, and it carries the document's
`provider` and `fullName` values whenever the document sets them. -/
lemma upsert_establishes (s : Store) (q : String) (u : UpdateDoc) (now : Nat)
    (hq : u.email = some q) (hcount : countEmail s q ≤ 1) :
    ∃ r, findByEmail (findOneAndUpdate s q u true now).2.records q = some r ∧
      countEmail (findOneAndUpdate s q u true now).2 q = 1 ∧
      r.email = q ∧
      (∀ v, u.provider = some v → r.provider = v) ∧
      (∀ w, u.fullName = some w → r.fullName = w) := by
  cases hfind : findByEmail s.records q with
  | none =>
    rw [findOneAndUpdate_absent s q u now hfind]
    have hce : (createRecord u q s.nextId now).email = q := by
      simp [createRecord, hq]
    refine ⟨createRecord u q s.nextId now, ?_, ?_, hce, ?_, ?_⟩
    · exact findByEmail_append_none s.records q _ hfind hce
    · have h0 : countEmail s q = 0 := countEmail_eq_zero hfind
      rw [countEmail] at h0 ⊢
      simp [emailsOf_append, hce, h0]
    · intro v hv
      simp [createRecord, hv]
    · intro w hw
      simp [createRecord, hw]
  | some r0 =>
    rw [findOneAndUpdate_found s q u true now r0 hfind]
    have hre : (applyUpdate u r0).email = q := by
      simp [applyUpdate, hq]
    refine ⟨applyUpdate u r0, ?_, ?_, hre, ?_, ?_⟩
    · exact findByEmail_updateFirst s.records q r0 _ hfind hre
    · have hc : countEmail { s with records := (updateFirst (fun x => x.email == q) (fun _ => applyUpdate u r0) s.records) } q = countEmail s q := by
        rw [countEmail, countEmail]
        rw [emailsOf_updateFirst q _ hre]
      rw [hc]
      have := countEmail_pos hfind
      omega
    · intro v hv
      simp [applyUpdate, hv]
    · intro w hw
      simp [applyUpdate, hw]

lemma googleVerify_store (s : Store) (now : Nat) (p : Profile) (e : String)
    (h : googleEmailClaim p = some e) :
    (googleVerify s now p).2 =
      (findOneAndUpdate s e { email := some e, provider := some "google", fullName := some p.displayName } true now).2 := by
  cases hfu : findOneAndUpdate s e { email := some e, provider := some "google", fullName := some p.displayName } true now with
  | mk r? s' => cases r? <;> simp [googleVerify, h, hfu]

lemma linkedinVerify_store (s : Store) (now : Nat) (p : Profile) (e : String)
    (h : linkedinEmailClaim p = some e) :
    (linkedinVerify s now p).2 =
      (findOneAndUpdate s e { email := some e, provider := some "linkedin", fullName := some p.displayName } true now).2 := by
  cases hfu : findOneAndUpdate s e { email := some e, provider := some "linkedin", fullName := some p.displayName } true now with
  | mk r? s' => cases r? <;> simp [linkedinVerify, h, hfu]

/-- C4: a Google assertion for email `e` followed by a LinkedIn assertion for
the same `e`, starting from a store with at most one record for `e`, leaves
exactly one record for `e`; that record's `provider` is `"linkedin"` and its
`fullName` is the LinkedIn assertion's display name — merged by email, with
`provider` overwritten. -/
theorem C4_cross_provider_merge (s : Store) (n1 n2 : Nat)
    (sess1 sess2 : Option Nat) (e : String) (p1 p2 : Profile)
    (h1 : googleEmailClaim p1 = some e) (h2 : linkedinEmailClaim p2 = some e)
    (hu : countEmail s e ≤ 1) :
    countEmail ((authLinkedinCallback (authGoogleCallback s sess1 n1 p1).store sess2 n2 p2).store) e = 1 ∧
    ∃ r, findByEmail ((authLinkedinCallback (authGoogleCallback s sess1 n1 p1).store sess2 n2 p2).store).records e = some r ∧
      r.provider = "linkedin" ∧ r.fullName = p2.displayName := by
  rw [authLinkedinCallback_store, authGoogleCallback_store,
    googleVerify_store s n1 p1 e h1]
  obtain ⟨r1, hf1, hc1, he1, -, -⟩ := upsert_establishes s e
    { email := some e, provider := some "google", fullName := some p1.displayName }
    n1 rfl hu
  rw [linkedinVerify_store _ n2 p2 e h2]
  obtain ⟨r2, hf2, hc2, he2, hp2, hn2⟩ := upsert_establishes _ e
    { email := some e, provider := some "linkedin", fullName := some p2.displayName }
    n2 rfl (le_of_eq hc1)
  exact ⟨hc2, r2, hf2, hp2 "linkedin" rfl, hn2 p2.displayName rfl⟩

theorem C4_cross_provider_merge_witness :
    countEmail ((authLinkedinCallback (authGoogleCallback ⟨[], 0⟩ none 1 ⟨["a@x.com"], none, some "G Name"⟩).store none 2 ⟨[], some "a@x.com", some "L Name"⟩).store) "a@x.com" = 1 ∧
    ∃ r, findByEmail ((authLinkedinCallback (authGoogleCallback ⟨[], 0⟩ none 1 ⟨["a@x.com"], none, some "G Name"⟩).store none 2 ⟨[], some "a@x.com", some "L Name"⟩).store).records "a@x.com" = some r ∧
      r.provider = "linkedin" ∧ r.fullName = some "L Name" :=
  C4_cross_provider_merge ⟨[], 0⟩ 1 2 none none "a@x.com"
    ⟨["a@x.com"], none, some "G Name"⟩ ⟨[], some "a@x.com", some "L Name"⟩
    (by decide) (by decide) (by decide)

/-- C6: `registeredAt` is set exactly once. Across any single operation —
register-email, update-details, or an identity-provider callback — every
pre-existing record keeps its `registeredAt` (witnessed by a post-state record
with the same id), and every post-state record either inherits id and
`registeredAt` from a pre-existing record or was created by this operation
with `registeredAt` equal to its timestamp. -/
theorem C6_registeredAt_set_once (s : Store) (op : Op) :
    (∀ r ∈ s.records, ∃ r' ∈ (applyOp s op).records,
        r'.id = r.id ∧ r'.registeredAt = r.registeredAt) ∧
    (∀ r' ∈ (applyOp s op).records,
        (∃ r ∈ s.records, r'.id = r.id ∧ r'.registeredAt = r.registeredAt) ∨
        r'.registeredAt = op.now) := by
  rcases applyOp_shape s op with hs | ⟨q, u, r, hfind, hrec, -⟩ | ⟨q, u, hfind, hrec, -⟩
  · rw [hs]
    exact ⟨fun r hr => ⟨r, hr, rfl, rfl⟩, fun r' hr' => Or.inl ⟨r', hr', rfl, rfl⟩⟩
  · constructor
    · intro a ha
      rw [hrec]
      rcases updateFirst_found_frame s.records q r (applyUpdate u) hfind a ha with h1 | ⟨h1, h2⟩
      · exact ⟨a, h1, rfl, rfl⟩
      · subst h1
        exact ⟨applyUpdate u a, h2, applyUpdate_id u a, applyUpdate_registeredAt u a⟩
    · intro r' hr'
      rw [hrec] at hr'
      rcases updateFirst_found_sub s.records q (fun _ => applyUpdate u r) r' hr' with h1 | ⟨a, ha, h2⟩
      · exact Or.inl ⟨r', h1, rfl, rfl⟩
      · left
        refine ⟨r, findByEmail_mem hfind, ?_, ?_⟩
        · rw [h2]
          exact applyUpdate_id u r
        · rw [h2]
          exact applyUpdate_registeredAt u r
  · constructor
    · intro a ha
      rw [hrec]
      exact ⟨a, List.mem_append_left _ ha, rfl, rfl⟩
    · intro r' hr'
      rw [hrec] at hr'
      rcases List.mem_append.mp hr' with h1 | h1
      · exact Or.inl ⟨r', h1, rfl, rfl⟩
      · right
        rw [List.mem_singleton.mp h1]
        rfl

theorem C6_registeredAt_set_once_witness :
    (∀ r ∈ (⟨[⟨0, "a@x.com", none, none, none, none, "local", 7⟩], 1⟩ : Store).records,
      ∃ r' ∈ (applyOp ⟨[⟨0, "a@x.com", none, none, none, none, "local", 7⟩], 1⟩ (Op.register 4 (some "a@x.com"))).records,
        r'.id = r.id ∧ r'.registeredAt = r.registeredAt) ∧
    (∀ r' ∈ (applyOp ⟨[⟨0, "a@x.com", none, none, none, none, "local", 7⟩], 1⟩ (Op.register 4 (some "a@x.com"))).records,
        (∃ r ∈ (⟨[⟨0, "a@x.com", none, none, none, none, "local", 7⟩], 1⟩ : Store).records,
          r'.id = r.id ∧ r'.registeredAt = r.registeredAt) ∨
        r'.registeredAt = (Op.register 4 (some "a@x.com")).now) :=
  C6_registeredAt_set_once ⟨[⟨0, "a@x.com", none, none, none, none, "local", 7⟩], 1⟩
    (Op.register 4 (some "a@x.com"))

/-- Each single operation preserves the store's per-email uniqueness. -/
lemma applyOp_preserves_emailUnique (s : Store) (op : Op) (h : emailUnique s) :
    emailUnique (applyOp s op) := by
  unfold emailUnique at h ⊢
  rcases applyOp_shape s op with hs | ⟨q, u, r, hfind, hrec, hq⟩ | ⟨q, u, hfind, hrec, hq⟩
  · rw [hs]
    exact h
  · have hre : (applyUpdate u r).email = q := by
      rcases hq with hq | hq
      · simp [applyUpdate, hq, findByEmail_email hfind]
      · simp [applyUpdate, hq]
    rw [hrec, emailsOf_updateFirst q _ hre]
    exact h
  · have hce : (createRecord u q s.nextId op.now).email = q := by
      rcases hq with hq | hq <;> simp [createRecord, hq]
    have hnm : q ∉ emailsOf s.records := by
      rw [mem_emailsOf]
      rintro ⟨r, hr, he⟩
      exact ((findByEmail_eq_none_iff _ _).mp hfind) r hr he
    rw [hrec, emailsOf_append, hce]
    simp [List.nodup_append, h, hnm]

/-- C7: in every state reachable from a store with unique emails — in
particular the empty store — by any sequence of register-email,
update-details and identity-provider operations, at most one record exists
per distinct email: no operation ever produces two records with the same
email. -/
theorem C7_unique_email_invariant (ops : List Op) (s : Store)
    (h : emailUnique s) : emailUnique (ops.foldl applyOp s) := by
  induction ops generalizing s with
  | nil => exact h
  | cons op ops ih =>
    exact ih (applyOp s op) (applyOp_preserves_emailUnique s op h)

theorem C7_unique_email_invariant_witness :
    emailUnique ([Op.register 4 (some "a@x.com"), Op.details 5 { email := some "a@x.com", fullName := some "Ada" }, Op.google 6 none ⟨["a@x.com"], none, some "G"⟩].foldl applyOp ⟨[], 0⟩) :=
  C7_unique_email_invariant
    [Op.register 4 (some "a@x.com"), Op.details 5 { email := some "a@x.com", fullName := some "Ada" }, Op.google 6 none ⟨["a@x.com"], none, some "G"⟩]
    ⟨[], 0⟩ (by simp [emailUnique, emailsOf])
